import Mathlib

/-!
Verification of the request-translation and header-rewriting pipeline of the
nzp proxy server (a small Express/axios forward proxy).

The repository contains several near-duplicate revisions of the same program.
The definitions below are shallow embeddings of the concrete revisions that
the checked claims cite:

* `server.js`, first revision (`app.get` route for the explicit mode,
  response headers copied without any filtering);
* `server.js`, catch-all middleware revision (`app.use` universal handler,
  `handleProxyRequest` shared by both modes, generic error middleware);
* `src/unnamed/part_000`, first revision (`app.get` route for the explicit
  mode plus an `app.get` catch-all asset route with MIME correction).

JavaScript strings are modelled as Lean `String`; `String.prototype.includes`,
`startsWith` and `toLowerCase` are modelled character-exactly on `String.data`.
JavaScript objects (used for the outbound header set) are modelled as
insertion-ordered association lists with case-sensitive keys, values being
`Option String` (`none` models a stored `null`).  `express`/`node` deliver
inbound `req.headers` with lowercased keys; theorems that depend on that
runtime guarantee take it as an explicit hypothesis.
-/

/-- Scanner behind `String.prototype.includes`: `pat` occurs as a contiguous
substring of `l`. -/
def containsSub (l pat : List Char) : Bool :=
  pat.isPrefixOf l ||
    match l with
    | [] => false
    | _ :: t => containsSub t pat

/-- JavaScript `s.includes(pat)` (case-sensitive substring test). -/
def jsIncludes (s pat : String) : Bool := containsSub s.data pat.data

/-- JavaScript `s.startsWith(pat)`. -/
def jsStartsWith (s pat : String) : Bool := pat.data.isPrefixOf s.data

/-- ASCII lower-casing of one character, as `String.prototype.toLowerCase`
acts on ASCII header names. -/
def chLower (c : Char) : Char :=
  if 65 ≤ c.toNat ∧ c.toNat ≤ 90 then Char.ofNat (c.toNat + 32) else c

/-- JavaScript `s.toLowerCase()` (ASCII range, which covers header names). -/
def jsToLower (s : String) : String := ⟨s.data.map chLower⟩

/-- JavaScript `v || d` for a string value `v` that may be `undefined`/`null`
(`none`) or empty (falsy): the default `d` is used in the falsy cases. -/
def jsOr (v : Option String) (d : String) : String :=
  match v with
  | some s => if s == "" then d else s
  | none => d

/-- JavaScript `v || null` for a string value: empty strings collapse to
`null` (`none`). -/
def jsOrNull (v : Option String) : Option String :=
  match v with
  | some s => if s == "" then none else some s
  | none => none

/-- The constant `NZP_ORIGIN = 'https://nzp.gay'` (server.js, middleware revision;
the other revisions inline the same literal). -/
def NZP_ORIGIN : String := "https://nzp.gay"

/-- The fixed browser User-Agent string used across all revisions. -/
def fixedUA : String :=
  "Mozilla/5.0 (Windows NT 10.0; Win64; x64) AppleWebKit/537.36 (KHTML, like Gecko) Chrome/120.0.0.0 Safari/537.36"

/-- Body of the 400 response for a missing `url` query parameter. -/
def missingUrlMsg : String :=
  "Error: Missing target URL. Please provide a URL in the \"url\" query parameter."

/-- Body of the 404 response of the middleware revision for an asset path
without a file extension (server.js, middleware revision). -/
def mwNotFoundMsg : String := "Not Found: Invalid asset path or unhandled request."

/-- Path normalisation used before building an asset target URL:
`if (!assetPath.startsWith('/')) assetPath = '/' + assetPath`. -/
def normalizeSlash (p : String) : String :=
  if jsStartsWith p "/" then p else "/" ++ p

/-- Inbound request headers as delivered by express (`req.headers`). -/
abbrev Headers := List (String × String)

/-- A JavaScript object holding outbound headers: insertion-ordered,
case-sensitive keys; a `none` value models a stored `null`. -/
abbrev JSObj := List (String × Option String)

/-- JavaScript property assignment `o[k] = v`: replace the entry with exactly
key `k` in place, or append a new entry. -/
def objSet (o : JSObj) (k : String) (v : Option String) : JSObj :=
  if o.any (fun p => p.1 == k) then
    o.map (fun p => if p.1 == k then (k, v) else p)
  else o ++ [(k, v)]

/-- JavaScript property read `o[k]`, collapsing `undefined` and `null` to
`none`. -/
def objLookup (o : JSObj) (k : String) : Option String :=
  (o.find? (fun p => p.1 == k)).bind (fun p => p.2)

/-- Truthiness of `o[k]` (`undefined`, `null` and `''` are falsy). -/
def objTruthy (o : JSObj) (k : String) : Bool :=
  match objLookup o k with
  | some v => !(v == "")
  | none => false

/-- Exact-key read on the inbound `req.headers` object. -/
def headersLookup (hs : Headers) (k : String) : Option String :=
  (hs.find? (fun p => p.1 == k)).map (fun p => p.2)

/-- The inbound header filter `for (const header in req.headers)
if (!stop.includes(header.toLowerCase())) headersToForward[header] = req.headers[header]`,
shared by every revision, parameterised by the stop-list. -/
def filterHeaders (stop : List String) (hs : Headers) : JSObj :=
  hs.foldl
    (fun acc p =>
      if stop.contains (jsToLower p.1) then acc else objSet acc p.1 (some p.2))
    []

/-- The header value the HTTP client sends upstream for (lowercased) name
`lname`, given the outbound header object: for names that collide
case-insensitively the last write wins, and a `null` value means the header
is not sent. -/
def sentHeaderValue (o : JSObj) (lname : String) : Option String :=
  o.foldl (fun acc p => if jsToLower p.1 == lname then p.2 else acc) none

/-- Stop-list of `handleProxyRequest` (server.js, middleware revision,
both modes), transcribed verbatim, duplicate entry included. -/
def hprStopList : List String :=
  ["host", "connection", "x-forwarded-for", "x-forwarded-host",
   "x-forwarded-proto", "via", "cf-connecting-ip", "true-client-ip",
   "x-real-ip", "x-cluster-client-ip", "forwarded", "x-forwarded-proto",
   "x-forwarded-ssl", "x-app-name", "x-app-version", "accept-encoding",
   "if-none-match", "if-modified-since"]

/-- Stop-list of the catch-all asset route of part_000 (first revision),
identical to the `handleProxyRequest` one. -/
def assetStopList : List String := hprStopList

/-- Stop-list of the explicit `/proxy` route of part_000 (first revision):
no conditional-caching entries. -/
def explicitStopList : List String :=
  ["host", "connection", "x-forwarded-for", "x-forwarded-host",
   "x-forwarded-proto", "via", "cf-connecting-ip", "true-client-ip",
   "x-real-ip", "x-cluster-client-ip", "forwarded", "x-forwarded-proto",
   "x-forwarded-ssl", "x-app-name", "x-app-version", "accept-encoding"]

/-- The Accept value derived from a path (or full target URL) by the
first-match-wins chain of `includes` tests shared by the asset handlers. -/
def deriveAccept (u : String) : String :=
  if jsIncludes u ".js" || jsIncludes u ".mjs" then
    "application/javascript, */*;q=0.8"
  else if jsIncludes u ".css" then "text/css, */*;q=0.8"
  else if jsIncludes u ".wasm" then "application/wasm, application/x-wasm, */*;q=0.8"
  else if jsIncludes u ".pk3" then "application/octet-stream, */*;q=0.8"
  else if jsIncludes u "." then
    "image/*, audio/*, video/*, application/json, text/*, */*;q=0.8"
  else "*/*"

/-- Outbound header set built by `handleProxyRequest(targetUrl, req, res,
next, isAssetRequest)` (server.js, middleware revision, lines 131-166 of the
concatenated file). -/
def hprHeaders (targetUrl : String) (isAssetRequest : Bool) (hs : Headers) : JSObj :=
  let h0 := filterHeaders hprStopList hs
  let h1 := objSet h0 "User-Agent" (some fixedUA)
  let h2 := objSet h1 "Referer" (some (NZP_ORIGIN ++ "/"))
  let h3 :=
    if isAssetRequest then objSet h2 "Origin" (some NZP_ORIGIN)
    else objSet h2 "Origin" (jsOrNull (headersLookup hs "origin"))
  if isAssetRequest && !(objTruthy h3 "Accept") then
    objSet h3 "Accept" (some (deriveAccept targetUrl))
  else h3

/-- Outbound header set built by the catch-all asset route of part_000
(first revision, lines 95-123). -/
def assetHandlerHeaders (assetPath : String) (hs : Headers) : JSObj :=
  let h0 := filterHeaders assetStopList hs
  let h1 := objSet h0 "User-Agent" (some fixedUA)
  let h2 := objSet h1 "Referer" (some "https://nzp.gay/")
  let h3 := objSet h2 "Origin" (some "https://nzp.gay")
  if !(objTruthy h3 "Accept") then
    objSet h3 "Accept" (some (deriveAccept assetPath))
  else h3

/-- Outbound header set built by the explicit `/proxy` route of part_000
(first revision, lines 22-31).  `urlOrigin` stands for the value of
`new URL(targetUrl).origin`, computed by the URL parser collaborator. -/
def explicitHandlerHeaders (urlOrigin : String) (hs : Headers) : JSObj :=
  let h0 := filterHeaders explicitStopList hs
  let h1 := objSet h0 "User-Agent" (some (jsOr (objLookup h0 "user-agent") fixedUA))
  objSet h1 "Referer" (some (jsOr (objLookup h1 "referer") (urlOrigin ++ "/")))

/-- Caller-visible Content-Type computed by the catch-all asset route of
part_000 (first revision, lines 142-154): MIME-mismatch correction keyed on
the decoded asset path. -/
def assetHandlerContentType (assetPath : String) (upstreamCT : Option String) : String :=
  let contentType := jsOr upstreamCT "application/octet-stream"
  if jsIncludes assetPath ".js" && jsIncludes contentType "text/html" then
    "application/javascript"
  else if jsIncludes assetPath ".wasm" && jsIncludes contentType "text/html" then
    "application/wasm"
  else if jsIncludes assetPath ".pk3" && jsIncludes contentType "text/html" then
    "application/octet-stream"
  else contentType

/-- Caller-visible Content-Type computed by `handleProxyRequest` (server.js,
middleware revision, lines 186-203): the MIME-mismatch correction is applied
only for asset requests and is keyed on the full target URL. -/
def hprContentType (isAssetRequest : Bool) (targetUrl : String)
    (upstreamCT : Option String) : String :=
  let contentType := jsOr upstreamCT "application/octet-stream"
  if isAssetRequest then
    if jsIncludes targetUrl ".js" && jsIncludes contentType "text/html" then
      "application/javascript"
    else if jsIncludes targetUrl ".wasm" && jsIncludes contentType "text/html" then
      "application/wasm"
    else if jsIncludes targetUrl ".pk3" && jsIncludes contentType "text/html" then
      "application/octet-stream"
    else contentType
  else contentType

/-- The `validateStatus` callback of the explicit `/proxy` route of part_000 (first
revision, lines 39-41): `status >= 200 && status < 300 || status === 404`. -/
def validateStatusExplicit (status : Nat) : Bool :=
  (decide (200 ≤ status) && decide (status < 300)) || (status == 404)

/-- The `validateStatus` callback of the catch-all asset route of part_000 (first
revision, lines 131-133): `status >= 200 && status < 300`. -/
def validateStatusAsset (status : Nat) : Bool :=
  decide (200 ≤ status) && decide (status < 300)

/-- Explicit-mode fetch outcome: axios resolves (and the handler forwards the
upstream status verbatim via `res.status(response.status)`) exactly when
`validateStatus` accepts it; otherwise the fetch is an error. -/
def explicitFetchResult (status : Nat) : Option Nat :=
  if validateStatusExplicit status then some status else none

/-- Asset-mode fetch outcome, analogous. -/
def assetFetchResult (status : Nat) : Option Nat :=
  if validateStatusAsset status then some status else none

/-- Target URL of the catch-all asset route of part_000 (first revision,
lines 86-90): slash-normalised decoded path appended to the fixed origin. -/
def targetAssetUrl (assetPath : String) : String :=
  "https://nzp.gay" ++ normalizeSlash assetPath

/-- Result of the explicit `/proxy` route head (server.js, first revision,
lines 11-15): missing or empty `url` is rejected with 400, any other value is
fetched verbatim, with no URL validation. -/
inductive ExplicitAction where
  | respond400 (body : String)
  | fetch (url : String)
deriving DecidableEq

def proxyRoute (queryUrl : Option String) : ExplicitAction :=
  match queryUrl with
  | none => .respond400 missingUrlMsg
  | some u => if u == "" then .respond400 missingUrlMsg else .fetch u

/-- Classification performed by the universal middleware of server.js
(middleware revision, lines 86-118): either a direct response, an explicit
proxy fetch, or an asset fetch. -/
inductive MwAction where
  | respond (status : Nat) (body : String)
  | fetchExplicit (url : String)
  | fetchAsset (url : String)
deriving DecidableEq

/-- Here `decodedUrl` is `decodeURIComponent(req.originalUrl)`; `queryUrl` is the
`url` query parameter as parsed by express. -/
def mwClassify (decodedUrl : String) (queryUrl : Option String) : MwAction :=
  if jsStartsWith decodedUrl "/proxy?url=" then
    match queryUrl with
    | none => .respond 400 missingUrlMsg
    | some u => if u == "" then .respond 400 missingUrlMsg else .fetchExplicit u
  else
    let assetPath := normalizeSlash decodedUrl
    if jsIncludes assetPath "." = false then .respond 404 mwNotFoundMsg
    else .fetchAsset (NZP_ORIGIN ++ assetPath)

/-- Node `res.setHeader(k, v)`: header names are case-insensitive; a later
set replaces an earlier one. -/
def resSet (o : List (String × String)) (k v : String) : List (String × String) :=
  if o.any (fun p => jsToLower p.1 == jsToLower k) then
    o.map (fun p => if jsToLower p.1 == jsToLower k then (k, v) else p)
  else o ++ [(k, v)]

/-- Exact-key read on the axios response-header object (axios lowercases the
names it stores). -/
def respLookup (up : List (String × String)) (k : String) : Option String :=
  (up.find? (fun p => p.1 == k)).map (fun p => p.2)

/-- Response-header copy loop with the set-cookie filter (part_000 first
revision lines 136-140, and `handleProxyRequest` lines 180-184):
`if (header.toLowerCase() !== 'set-cookie') res.setHeader(...)`. -/
def copyResponseHeaders (up : List (String × String)) : List (String × String) :=
  up.foldl
    (fun acc p => if jsToLower p.1 == "set-cookie" then acc else resSet acc p.1 p.2)
    []

/-- Response-header copy loop of the first revision of server.js (lines
38-41): every upstream header is copied, with no filter at all. -/
def copyAllResponseHeaders (up : List (String × String)) : List (String × String) :=
  up.foldl (fun acc p => resSet acc p.1 p.2) []

/-- Caller-visible response headers of the catch-all asset route of part_000
(first revision): filtered copy, then the corrected Content-Type. -/
def assetResponseHeaders (assetPath : String) (up : List (String × String)) :
    List (String × String) :=
  resSet (copyResponseHeaders up) "Content-Type"
    (assetHandlerContentType assetPath (respLookup up "content-type"))

/-- Caller-visible response headers of the explicit `/proxy` route of
part_000 (first revision, lines 44-50): filtered copy, then the upstream
Content-Type (or the octet-stream default). -/
def explicitResponseHeaders (up : List (String × String)) : List (String × String) :=
  resSet (copyResponseHeaders up) "Content-Type"
    (jsOr (respLookup up "content-type") "application/octet-stream")

/-- Body sent by the generic error-handling middleware (server.js middleware
revision lines 217-229, identically in part_000 and part_002). -/
def internalErrorBody : String :=
  "An internal proxy server error occurred. Check server logs for details."

/-- The generic error-handling middleware: it receives the error passed by
`next(error)` (in particular a fetch failure with no response at all) and,
when response headers have not been sent yet, answers 500 with a fixed body;
otherwise it delegates (`none`). -/
def errorMiddleware (errMessage : String) (headersSent : Bool) : Option (Nat × String) :=
  if headersSent then none else some (500, internalErrorBody)

/-! ### Helper lemmas -/

/-- Unfolding step of the substring scanner. -/
theorem containsSub_cons (c : Char) (l pat : List Char) :
    containsSub (c :: l) pat = (pat.isPrefixOf (c :: l) || containsSub l pat) := rfl

/-- Prepending the fixed asset origin cannot create or destroy an occurrence
of `.js` (no suffix of the origin followed by a prefix of the path spells it). -/
theorem jsIncludes_origin_js (p : String) :
    jsIncludes (NZP_ORIGIN ++ p) ".js" = jsIncludes p ".js" := rfl

theorem jsIncludes_origin_mjs (p : String) :
    jsIncludes (NZP_ORIGIN ++ p) ".mjs" = jsIncludes p ".mjs" := rfl

theorem jsIncludes_origin_css (p : String) :
    jsIncludes (NZP_ORIGIN ++ p) ".css" = jsIncludes p ".css" := rfl

theorem jsIncludes_origin_wasm (p : String) :
    jsIncludes (NZP_ORIGIN ++ p) ".wasm" = jsIncludes p ".wasm" := rfl

theorem jsIncludes_origin_pk3 (p : String) :
    jsIncludes (NZP_ORIGIN ++ p) ".pk3" = jsIncludes p ".pk3" := rfl

/-- The fixed asset origin itself contains a dot, so every asset target URL
does. -/
theorem jsIncludes_origin_dot (p : String) :
    jsIncludes (NZP_ORIGIN ++ p) "." = true := rfl

/-- Every asset target URL starts with the https scheme. -/
theorem jsStartsWith_origin_scheme (p : String) :
    jsStartsWith (NZP_ORIGIN ++ p) "https://" = true := rfl

theorem jsToLower_userAgent : jsToLower "User-Agent" = "user-agent" := rfl

theorem jsToLower_referer : jsToLower "Referer" = "referer" := rfl

theorem jsToLower_origin : jsToLower "Origin" = "origin" := rfl

theorem jsToLower_accept : jsToLower "Accept" = "accept" := rfl

theorem jsToLower_contentType : jsToLower "Content-Type" = "content-type" := rfl

/-- A predicate on keys survives a JavaScript property assignment provided it
holds for the assigned key. -/
theorem objSet_forall_keys {P : String → Prop} {o : JSObj} {k : String}
    {v : Option String} (ho : ∀ q ∈ o, P q.1) (hk : P k) :
    ∀ q ∈ objSet o k v, P q.1 := by
  intro q hq
  unfold objSet at hq
  split at hq
  · rcases List.mem_map.mp hq with ⟨p, hp, hpq⟩
    by_cases h : p.1 == k
    · rw [if_pos h] at hpq
      rw [← hpq]
      exact hk
    · rw [if_neg h] at hpq
      rw [← hpq]
      exact ho p hp
  · rcases List.mem_append.mp hq with h | h
    · exact ho q h
    · rw [List.mem_singleton.mp h]
      exact hk

/-- When no entry has exactly the assigned key, assignment is an append. -/
theorem objSet_append {o : JSObj} {k : String} {v : Option String}
    (h : o.any (fun p => p.1 == k) = false) : objSet o k v = o ++ [(k, v)] := by
  unfold objSet
  rw [h]
  simp

/-- From a keywise disequality, the exact-key search fails. -/
theorem any_key_eq_false {o : JSObj} {k : String} (h : ∀ q ∈ o, ¬ q.1 = k) :
    o.any (fun p => p.1 == k) = false := by
  rw [List.any_eq_false]
  intro p hp
  simp only [beq_iff_eq]
  exact h p hp

/-- All-lowercase keys are never equal to a key that is not lowercase. -/
theorem keys_ne_of_lower {o : JSObj} (ho : ∀ q ∈ o, jsToLower q.1 = q.1)
    {k : String} (hk : ¬ jsToLower k = k) : ∀ q ∈ o, ¬ q.1 = k := by
  intro q hq he
  exact hk (he ▸ ho q hq)

/-- Invariant of the inbound-header filter loop: any key predicate holding
for the seed object and for every non-stop-listed inbound name holds for the
result. -/
theorem filterFold_keys {P : String → Prop} (stop : List String) :
    ∀ (hs : Headers) (acc : JSObj), (∀ q ∈ acc, P q.1) →
      (∀ p ∈ hs, stop.contains (jsToLower p.1) = false → P p.1) →
      ∀ q ∈ hs.foldl
        (fun acc p =>
          if stop.contains (jsToLower p.1) then acc else objSet acc p.1 (some p.2))
        acc, P q.1 := by
  intro hs
  induction hs with
  | nil => intro acc hacc _ q hq; exact hacc q hq
  | cons p t ih =>
    intro acc hacc hstep q hq
    rw [List.foldl_cons] at hq
    by_cases hc : stop.contains (jsToLower p.1) = true
    · rw [if_pos hc] at hq
      exact ih acc hacc (fun r hr => hstep r (List.mem_cons_of_mem p hr)) q hq
    · rw [if_neg hc] at hq
      refine ih (objSet acc p.1 (some p.2)) ?_
        (fun r hr => hstep r (List.mem_cons_of_mem p hr)) q hq
      exact objSet_forall_keys hacc
        (hstep p (List.mem_cons_self p t) (Bool.not_eq_true _ ▸ hc))

/-- Every key of the filtered inbound headers escapes the stop-list. -/
theorem filterHeaders_keys_not_stop (stop : List String) (hs : Headers) :
    ∀ q ∈ filterHeaders stop hs, stop.contains (jsToLower q.1) = false := by
  unfold filterHeaders
  refine @filterFold_keys (fun n => stop.contains (jsToLower n) = false) stop hs [] ?_ ?_
  · intro q hq; cases hq
  · intro p _ hp; exact hp

/-- When the inbound header names are lowercase (as node delivers them), so
are the keys of the filtered set. -/
theorem filterHeaders_keys_lower (stop : List String) (hs : Headers)
    (hlc : ∀ p ∈ hs, jsToLower p.1 = p.1) :
    ∀ q ∈ filterHeaders stop hs, jsToLower q.1 = q.1 := by
  unfold filterHeaders
  refine @filterFold_keys (fun n => jsToLower n = n) stop hs [] ?_ ?_
  · intro q hq; cases hq
  · intro p hp _; exact hlc p hp

/-- The header actually sent for a name, after appending one entry. -/
theorem sentHeaderValue_append (o : JSObj) (k : String) (v : Option String)
    (n : String) :
    sentHeaderValue (o ++ [(k, v)]) n
      = if jsToLower k == n then v else sentHeaderValue o n := by
  unfold sentHeaderValue
  rw [List.foldl_append]
  simp

/-- The header actually sent for a name, after appending a block of
entries. -/
theorem sentHeaderValue_append_list (o l : JSObj) (n : String) :
    sentHeaderValue (o ++ l) n
      = l.foldl (fun acc p => if jsToLower p.1 == n then p.2 else acc)
          (sentHeaderValue o n) := by
  unfold sentHeaderValue
  rw [List.foldl_append]

theorem keys_ne_append_single {o : JSObj} {k c : String} {v : Option String}
    (ho : ∀ q ∈ o, ¬ q.1 = k) (hc : ¬ c = k) :
    ∀ q ∈ o ++ [(c, v)], ¬ q.1 = k := by
  intro q hq
  rcases List.mem_append.mp hq with h | h
  · exact ho q h
  · rw [List.mem_singleton.mp h]; exact hc

theorem objTruthy_eq_false {o : JSObj} {k : String} (h : ∀ q ∈ o, ¬ q.1 = k) :
    objTruthy o k = false := by
  unfold objTruthy objLookup
  have hn : o.find? (fun p => p.1 == k) = none := by
    rw [List.find?_eq_none]
    intro p hp
    simp only [beq_iff_eq]
    exact h p hp
  rw [hn]
  rfl

theorem objLookup_append_ne {o : JSObj} {c k : String} {v : Option String}
    (h : ¬ c = k) : objLookup (o ++ [(c, v)]) k = objLookup o k := by
  unfold objLookup
  rw [List.find?_append]
  have hs : List.find? (fun p => p.1 == k) [(c, v)] = none := by
    simp [h]
  rw [hs]
  cases o.find? fun p => p.1 == k <;> rfl

/-- Under lowercase inbound names, `handleProxyRequest` only ever appends its
forced headers: the outbound object in explicit order.  In particular the
`!headersToForward['Accept']` guard always passes in asset mode, because the
capitalised key `Accept` never occurs among the filtered lowercase names. -/
theorem hprHeaders_eq (tu : String) (m : Bool) (hs : Headers)
    (hlc : ∀ p ∈ hs, jsToLower p.1 = p.1) :
    hprHeaders tu m hs =
      (((filterHeaders hprStopList hs
        ++ [("User-Agent", some fixedUA)])
        ++ [("Referer", some (NZP_ORIGIN ++ "/"))])
        ++ [("Origin", if m then some NZP_ORIGIN
              else jsOrNull (headersLookup hs "origin"))])
        ++ (if m then [("Accept", some (deriveAccept tu))] else []) := by
  have hf : ∀ q ∈ filterHeaders hprStopList hs, jsToLower q.1 = q.1 :=
    filterHeaders_keys_lower hprStopList hs hlc
  have h1 : objSet (filterHeaders hprStopList hs) "User-Agent" (some fixedUA)
      = filterHeaders hprStopList hs ++ [("User-Agent", some fixedUA)] :=
    objSet_append (any_key_eq_false (keys_ne_of_lower hf (by decide)))
  have hRef : ∀ q ∈ filterHeaders hprStopList hs ++ [("User-Agent", some fixedUA)],
      ¬ q.1 = "Referer" :=
    keys_ne_append_single (keys_ne_of_lower hf (by decide)) (by decide)
  have h2 : objSet (filterHeaders hprStopList hs ++ [("User-Agent", some fixedUA)])
      "Referer" (some (NZP_ORIGIN ++ "/"))
      = (filterHeaders hprStopList hs ++ [("User-Agent", some fixedUA)])
        ++ [("Referer", some (NZP_ORIGIN ++ "/"))] :=
    objSet_append (any_key_eq_false hRef)
  have hOrg : ∀ q ∈ (filterHeaders hprStopList hs ++ [("User-Agent", some fixedUA)])
      ++ [("Referer", some (NZP_ORIGIN ++ "/"))], ¬ q.1 = "Origin" :=
    keys_ne_append_single
      (keys_ne_append_single (keys_ne_of_lower hf (by decide)) (by decide)) (by decide)
  have hAccKeys : ∀ (w : Option String),
      ∀ q ∈ ((filterHeaders hprStopList hs ++ [("User-Agent", some fixedUA)])
        ++ [("Referer", some (NZP_ORIGIN ++ "/"))]) ++ [("Origin", w)],
      ¬ q.1 = "Accept" := by
    intro w
    exact keys_ne_append_single
      (keys_ne_append_single
        (keys_ne_append_single (keys_ne_of_lower hf (by decide)) (by decide))
        (by decide)) (by decide)
  cases m with
  | false =>
    unfold hprHeaders
    dsimp only
    simp only [Bool.false_and, Bool.false_eq_true, if_false]
    rw [h1, h2, objSet_append (any_key_eq_false hOrg)]
    simp
  | true =>
    unfold hprHeaders
    dsimp only
    simp only [Bool.true_and, reduceIte]
    rw [h1, h2, objSet_append (any_key_eq_false hOrg)]
    rw [objTruthy_eq_false (hAccKeys (some NZP_ORIGIN))]
    simp only [Bool.not_false, reduceIte]
    rw [objSet_append (any_key_eq_false (hAccKeys (some NZP_ORIGIN)))]

/-- Under lowercase inbound names, the part_000 asset route also only
appends, and it always derives an Accept header. -/
theorem assetHandlerHeaders_eq (ap : String) (hs : Headers)
    (hlc : ∀ p ∈ hs, jsToLower p.1 = p.1) :
    assetHandlerHeaders ap hs =
      (((filterHeaders assetStopList hs
        ++ [("User-Agent", some fixedUA)])
        ++ [("Referer", some "https://nzp.gay/")])
        ++ [("Origin", some "https://nzp.gay")])
        ++ [("Accept", some (deriveAccept ap))] := by
  have hf : ∀ q ∈ filterHeaders assetStopList hs, jsToLower q.1 = q.1 :=
    filterHeaders_keys_lower assetStopList hs hlc
  have h1 : objSet (filterHeaders assetStopList hs) "User-Agent" (some fixedUA)
      = filterHeaders assetStopList hs ++ [("User-Agent", some fixedUA)] :=
    objSet_append (any_key_eq_false (keys_ne_of_lower hf (by decide)))
  have hRef : ∀ q ∈ filterHeaders assetStopList hs ++ [("User-Agent", some fixedUA)],
      ¬ q.1 = "Referer" :=
    keys_ne_append_single (keys_ne_of_lower hf (by decide)) (by decide)
  have h2 := objSet_append (v := some "https://nzp.gay/") (any_key_eq_false hRef)
  have hOrg : ∀ q ∈ (filterHeaders assetStopList hs ++ [("User-Agent", some fixedUA)])
      ++ [("Referer", some "https://nzp.gay/")], ¬ q.1 = "Origin" :=
    keys_ne_append_single
      (keys_ne_append_single (keys_ne_of_lower hf (by decide)) (by decide)) (by decide)
  have h3 := objSet_append (v := some "https://nzp.gay") (any_key_eq_false hOrg)
  have hAcc : ∀ q ∈ ((filterHeaders assetStopList hs ++ [("User-Agent", some fixedUA)])
      ++ [("Referer", some "https://nzp.gay/")]) ++ [("Origin", some "https://nzp.gay")],
      ¬ q.1 = "Accept" :=
    keys_ne_append_single
      (keys_ne_append_single
        (keys_ne_append_single (keys_ne_of_lower hf (by decide)) (by decide))
        (by decide)) (by decide)
  unfold assetHandlerHeaders
  dsimp only
  rw [h1, h2, h3]
  rw [objTruthy_eq_false hAcc]
  simp only [Bool.not_false, if_pos]
  rw [objSet_append (any_key_eq_false hAcc)]

/-- Under lowercase inbound names, the part_000 explicit route appends its
User-Agent and Referer entries, whose values fall back on the filtered
caller values. -/
theorem explicitHandlerHeaders_eq (uo : String) (hs : Headers)
    (hlc : ∀ p ∈ hs, jsToLower p.1 = p.1) :
    explicitHandlerHeaders uo hs =
      (filterHeaders explicitStopList hs
        ++ [("User-Agent",
              some (jsOr (objLookup (filterHeaders explicitStopList hs) "user-agent")
                fixedUA))])
        ++ [("Referer",
              some (jsOr (objLookup (filterHeaders explicitStopList hs) "referer")
                (uo ++ "/")))] := by
  have hf : ∀ q ∈ filterHeaders explicitStopList hs, jsToLower q.1 = q.1 :=
    filterHeaders_keys_lower explicitStopList hs hlc
  have h1 := objSet_append
    (v := some (jsOr (objLookup (filterHeaders explicitStopList hs) "user-agent") fixedUA))
    (any_key_eq_false (keys_ne_of_lower hf (by decide : ¬ jsToLower "User-Agent" = "User-Agent")))
  have hRef : ∀ q ∈ filterHeaders explicitStopList hs
      ++ [("User-Agent",
            some (jsOr (objLookup (filterHeaders explicitStopList hs) "user-agent") fixedUA))],
      ¬ q.1 = "Referer" :=
    keys_ne_append_single (keys_ne_of_lower hf (by decide)) (by decide)
  unfold explicitHandlerHeaders
  dsimp only
  rw [h1]
  rw [objLookup_append_ne (by decide : ¬ ("User-Agent" : String) = "referer")]
  rw [objSet_append (any_key_eq_false hRef)]

theorem resSet_forall_keys {P : String → Prop} {o : List (String × String)}
    {k v : String} (ho : ∀ q ∈ o, P q.1) (hk : P k) :
    ∀ q ∈ resSet o k v, P q.1 := by
  intro q hq
  unfold resSet at hq
  split at hq
  · rcases List.mem_map.mp hq with ⟨p, hp, hpq⟩
    by_cases h : jsToLower p.1 == jsToLower k
    · rw [if_pos h] at hpq
      rw [← hpq]
      exact hk
    · rw [if_neg h] at hpq
      rw [← hpq]
      exact ho p hp
  · rcases List.mem_append.mp hq with h | h
    · exact ho q h
    · rw [List.mem_singleton.mp h]
      exact hk

theorem resSet_mem_self (o : List (String × String)) (k v : String) :
    (k, v) ∈ resSet o k v := by
  unfold resSet
  split
  · next h =>
    rcases List.any_eq_true.mp h with ⟨p, hp, hm⟩
    refine List.mem_map.mpr ⟨p, hp, ?_⟩
    rw [if_pos hm]
  · exact List.mem_append.mpr (Or.inr (List.mem_singleton.mpr rfl))

theorem resSet_mem_preserve {o : List (String × String)} {q : String × String}
    (hq : q ∈ o) {k v : String} (hne : ¬ jsToLower q.1 = jsToLower k) :
    q ∈ resSet o k v := by
  unfold resSet
  split
  · refine List.mem_map.mpr ⟨q, hq, ?_⟩
    rw [if_neg (by simpa using hne)]
  · exact List.mem_append.mpr (Or.inl hq)

/-- Invariant of the response-header copy loop (set-cookie filtered). -/
theorem copyFold_keys {P : String → Prop} :
    ∀ (us : List (String × String)) (acc : List (String × String)),
      (∀ q ∈ acc, P q.1) →
      (∀ p ∈ us, ¬ jsToLower p.1 = "set-cookie" → P p.1) →
      ∀ q ∈ us.foldl
        (fun acc p =>
          if jsToLower p.1 == "set-cookie" then acc else resSet acc p.1 p.2)
        acc, P q.1 := by
  intro us
  induction us with
  | nil => intro acc hacc _ q hq; exact hacc q hq
  | cons p t ih =>
    intro acc hacc hstep q hq
    rw [List.foldl_cons] at hq
    by_cases hc : (jsToLower p.1 == "set-cookie") = true
    · rw [if_pos hc] at hq
      exact ih acc hacc (fun r hr => hstep r (List.mem_cons_of_mem p hr)) q hq
    · rw [if_neg hc] at hq
      refine ih (resSet acc p.1 p.2) ?_
        (fun r hr => hstep r (List.mem_cons_of_mem p hr)) q hq
      exact resSet_forall_keys hacc
        (hstep p (List.mem_cons_self p t) (by simpa using hc))

/-- A header already accumulated survives the rest of the copy loop as long
as no remaining upstream name collides with it case-insensitively. -/
theorem copyFold_mem_keep :
    ∀ (us acc : List (String × String)) (q : String × String), q ∈ acc →
      (∀ r ∈ us, ¬ jsToLower r.1 = jsToLower q.1) →
      q ∈ us.foldl
        (fun acc p =>
          if jsToLower p.1 == "set-cookie" then acc else resSet acc p.1 p.2)
        acc := by
  intro us
  induction us with
  | nil => intro acc q hq _; exact hq
  | cons r t ih =>
    intro acc q hq hne
    rw [List.foldl_cons]
    by_cases hc : (jsToLower r.1 == "set-cookie") = true
    · rw [if_pos hc]
      exact ih acc q hq (fun b hb => hne b (List.mem_cons_of_mem r hb))
    · rw [if_neg hc]
      refine ih (resSet acc r.1 r.2) q ?_ (fun b hb => hne b (List.mem_cons_of_mem r hb))
      exact resSet_mem_preserve hq
        (fun he => hne r (List.mem_cons_self r t) he.symm)

/-- A non-set-cookie upstream header ends up in the copied set, provided the
upstream names are pairwise case-insensitively distinct (as they are for an
axios response-header object). -/
theorem copyFold_mem_new :
    ∀ (us acc : List (String × String)) (q : String × String), q ∈ us →
      ¬ jsToLower q.1 = "set-cookie" →
      List.Pairwise (fun a b => ¬ jsToLower a.1 = jsToLower b.1) us →
      q ∈ us.foldl
        (fun acc p =>
          if jsToLower p.1 == "set-cookie" then acc else resSet acc p.1 p.2)
        acc := by
  intro us
  induction us with
  | nil => intro acc q hq _ _; cases hq
  | cons r t ih =>
    intro acc q hq hsc hpw
    rcases List.pairwise_cons.mp hpw with ⟨hhead, htail⟩
    rw [List.foldl_cons]
    rcases List.mem_cons.mp hq with hqr | hqt
    · rw [hqr] at hsc ⊢
      rw [if_neg (by simpa using hsc)]
      refine copyFold_mem_keep t (resSet acc r.1 r.2) r ?_ ?_
      · have := resSet_mem_self acc r.1 r.2
        simpa using this
      · intro b hb he
        exact hhead b hb he.symm
    · by_cases hc : (jsToLower r.1 == "set-cookie") = true
      · rw [if_pos hc]
        exact ih acc q hqt hsc htail
      · rw [if_neg hc]
        exact ih (resSet acc r.1 r.2) q hqt hsc htail

theorem jsStartsWith_slash_prepend (p : String) : jsStartsWith ("/" ++ p) "/" = true := by
  show (['/'].isPrefixOf ('/' :: p.data)) = true
  simp [List.isPrefixOf]

/-- If a pattern occurs in a string, so does its first character. -/
theorem containsSub_head {l : List Char} {c : Char} {rest : List Char}
    (h : containsSub l (c :: rest) = true) : containsSub l [c] = true := by
  induction l with
  | nil =>
    rw [containsSub] at h
    simp [List.isPrefixOf] at h
  | cons a t ih =>
    rw [containsSub_cons] at h ⊢
    rw [Bool.or_eq_true] at h ⊢
    rcases h with h1 | h2
    · have hca : (c == a) = true := by
        simp only [List.isPrefixOf, Bool.and_eq_true] at h1
        exact h1.1
      left
      simp [List.isPrefixOf, hca]
    · exact Or.inr (ih h2)

theorem jsIncludes_dot_of_js (s : String) (h : jsIncludes s ".js" = true) :
    jsIncludes s "." = true := containsSub_head h

theorem jsIncludes_dot_of_mjs (s : String) (h : jsIncludes s ".mjs" = true) :
    jsIncludes s "." = true := containsSub_head h

theorem jsIncludes_dot_of_css (s : String) (h : jsIncludes s ".css" = true) :
    jsIncludes s "." = true := containsSub_head h

theorem jsIncludes_dot_of_wasm (s : String) (h : jsIncludes s ".wasm" = true) :
    jsIncludes s "." = true := containsSub_head h

theorem jsIncludes_dot_of_pk3 (s : String) (h : jsIncludes s ".pk3" = true) :
    jsIncludes s "." = true := containsSub_head h

/-! ### Claim theorems -/

/-- C3: `validateStatus` accepts exactly the statuses in [200, 300) in asset
mode and exactly [200, 300) together with 404 in explicit mode (part_000
first revision, lines 39-41 and 131-133); an accepted upstream status — in
particular an explicit-mode 404 — resolves the fetch and is forwarded to the
caller verbatim, while a rejected one is a fetch failure. -/
theorem c3_validateStatus (s : Nat) :
    (validateStatusAsset s = true ↔ (200 ≤ s ∧ s < 300))
    ∧ (validateStatusExplicit s = true ↔ ((200 ≤ s ∧ s < 300) ∨ s = 404))
    ∧ (validateStatusExplicit s = true → explicitFetchResult s = some s)
    ∧ (validateStatusAsset s = false → assetFetchResult s = none) := by
  refine ⟨?_, ?_, ?_, ?_⟩
  · simp [validateStatusAsset]
  · simp [validateStatusExplicit]
  · intro h
    simp [explicitFetchResult, h]
  · intro h
    simp [assetFetchResult, h]

/-- Witness for C3 at the distinguishing input 404: accepted and passed
through in explicit mode, a fetch failure in asset mode. -/
theorem c3_validateStatus_witness :
    explicitFetchResult 404 = some 404 ∧ assetFetchResult 404 = none := by
  refine ⟨(c3_validateStatus 404).2.2.1 ?_, (c3_validateStatus 404).2.2.2 ?_⟩
  · exact (c3_validateStatus 404).2.1.mpr (Or.inr rfl)
  · decide

/-- C8: every resolved asset target URL is the fixed origin followed by the
slash-normalised decoded path, hence absolute with an https scheme, and the
origin is a constant of the program, not of the request; in explicit mode
any non-empty `url` value — URL-shaped or not — is handed to the fetch
collaborator verbatim, with no validation (server.js first revision lines
10-15, part_000 first revision lines 86-90). -/
theorem c8_resolvedTarget (p u : String) :
    jsStartsWith (targetAssetUrl p) "https://" = true
    ∧ targetAssetUrl p = NZP_ORIGIN ++ normalizeSlash p
    ∧ jsStartsWith (normalizeSlash p) "/" = true
    ∧ (¬ u = "" → proxyRoute (some u) = ExplicitAction.fetch u)
    ∧ proxyRoute none = ExplicitAction.respond400 missingUrlMsg := by
  refine ⟨jsStartsWith_origin_scheme (normalizeSlash p), rfl, ?_, ?_, rfl⟩
  · unfold normalizeSlash
    by_cases h : jsStartsWith p "/" = true
    · rw [if_pos h]
      exact h
    · rw [if_neg h]
      exact jsStartsWith_slash_prepend p
  · intro hu
    unfold proxyRoute
    dsimp only
    rw [if_neg (by simpa using hu)]

/-- Witness for C8: a concrete dotless relative path and a concrete
non-URL `url` value. -/
theorem c8_resolvedTarget_witness :
    jsStartsWith (targetAssetUrl "game.pk3") "https://" = true
    ∧ proxyRoute (some "not a url") = ExplicitAction.fetch "not a url" := by
  exact ⟨(c8_resolvedTarget "game.pk3" "not a url").1,
    (c8_resolvedTarget "game.pk3" "not a url").2.2.2.1 (by decide)⟩

/-- C9 counterexample: the generic error middleware answers 500, but its
body is not the exact string the claim states — it carries the additional
sentence directing to the server logs. -/
theorem c9_counterexample :
    errorMiddleware "getaddrinfo ENOTFOUND nzp.gay" false
      = some (500, internalErrorBody)
    ∧ ¬ internalErrorBody = "An internal proxy server error occurred." := by
  exact ⟨rfl, by decide⟩

/-- C9 (amended): for every fetch failure with no response (the error passed
to `next` and caught by the generic middleware), when response headers have
not been sent the caller receives exactly 500 with the fixed plain-text body
"An internal proxy server error occurred. Check server logs for details.";
the body does not depend on the error, so no stack detail leaks; once
headers are sent the middleware only delegates. -/
theorem c9_internalError (errMessage : String) :
    errorMiddleware errMessage false = some (500, internalErrorBody)
    ∧ errorMiddleware errMessage true = none := by
  exact ⟨rfl, rfl⟩

/-- C10: in the catch-all middleware revision, an asset-classified request
whose decoded, slash-normalised path has no dot is answered 404 with the
Not-Found body, and no fetch action is produced (server.js middleware
revision, lines 108-113). -/
theorem c10_noExtension404 (decodedUrl : String) (queryUrl : Option String)
    (hnp : jsStartsWith decodedUrl "/proxy?url=" = false)
    (hnd : jsIncludes (normalizeSlash decodedUrl) "." = false) :
    mwClassify decodedUrl queryUrl = MwAction.respond 404 mwNotFoundMsg := by
  unfold mwClassify
  rw [hnp]
  simp only [Bool.false_eq_true, if_false]
  rw [hnd]
  simp only [reduceIte]

/-- Witness for C10 at the concrete extensionless path `/hello`. -/
theorem c10_noExtension404_witness :
    mwClassify "/hello" none = MwAction.respond 404 mwNotFoundMsg :=
  c10_noExtension404 "/hello" none (by decide) (by decide)

/-- C2 counterexample: in the catch-all middleware revision a GET to
`/proxy` with no query at all is not matched by the explicit branch (the
decoded URL does not start with the string `/proxy?url=`); it is classified
as an asset request and answered 404 Not-Found, not 400 with the
missing-URL message. -/
theorem c2_counterexample :
    mwClassify "/proxy" none = MwAction.respond 404 mwNotFoundMsg
    ∧ ¬ mwClassify "/proxy" none = MwAction.respond 400 missingUrlMsg := by
  exact ⟨by decide, by decide⟩

/-- C2 (amended): under the `app.get('/proxy')` route revisions, a request
with no `url` parameter is answered 400 with the exact missing-URL body and
no fetch occurs; under the catch-all middleware revision such a request
falls to the asset branch — 404 Not-Found when the decoded URL has no dot,
otherwise an upstream asset fetch — and its 400 answer occurs only when the
decoded URL does begin with `/proxy?url=` yet the parsed parameter is
missing or empty. -/
theorem c2_missingUrl (du : String) (qu : Option String) :
    proxyRoute none = ExplicitAction.respond400 missingUrlMsg
    ∧ (jsStartsWith du "/proxy?url=" = false →
        mwClassify du qu
          = (if jsIncludes (normalizeSlash du) "." = false then
              MwAction.respond 404 mwNotFoundMsg
            else MwAction.fetchAsset (NZP_ORIGIN ++ normalizeSlash du)))
    ∧ (jsStartsWith du "/proxy?url=" = true →
        mwClassify du none = MwAction.respond 400 missingUrlMsg) := by
  refine ⟨rfl, ?_, ?_⟩
  · intro h
    unfold mwClassify
    rw [h]
    simp only [Bool.false_eq_true, if_false]
  · intro h
    unfold mwClassify
    rw [h]
    simp only [reduceIte]

/-- Witness for C2: the concrete requests `/proxy` (middleware revision:
asset-classified, 404) and `/proxy?url=` with an empty parsed parameter
(middleware revision: 400). -/
theorem c2_missingUrl_witness :
    mwClassify "/proxy" none
      = (if jsIncludes (normalizeSlash "/proxy") "." = false then
          MwAction.respond 404 mwNotFoundMsg
        else MwAction.fetchAsset (NZP_ORIGIN ++ normalizeSlash "/proxy"))
    ∧ mwClassify "/proxy?url=" none = MwAction.respond 400 missingUrlMsg := by
  exact ⟨(c2_missingUrl "/proxy" none).2.1 (by decide),
    (c2_missingUrl "/proxy?url=" none).2.2 (by decide)⟩

/-- The `handleProxyRequest` correction keyed on the full asset target URL
coincides with the path-keyed correction: the fixed origin contributes no
occurrence of `.js`, `.wasm` or `.pk3`. -/
theorem hprContentType_asset (p : String) (uct : Option String) :
    hprContentType true (NZP_ORIGIN ++ p) uct = assetHandlerContentType p uct := rfl

/-- C1: for every asset-mode request the caller-visible Content-Type starts
from the upstream content-type (application/octet-stream when absent) and
applies the ordered MIME-mismatch correction on the resolved asset path —
`.js` with text/html gives application/javascript, else `.wasm` with
text/html gives application/wasm, else `.pk3` with text/html gives
application/octet-stream, and in every other case the upstream value passes
through unchanged; the URL-keyed `handleProxyRequest` correction agrees with
the path-keyed one on every resolved asset target, and explicit-mode
requests never get an override. -/
theorem c1_contentTypeCorrection (p tu : String) (uct : Option String) :
    hprContentType true (NZP_ORIGIN ++ normalizeSlash p) uct
        = assetHandlerContentType (normalizeSlash p) uct
    ∧ (jsIncludes (normalizeSlash p) ".js" = true →
        jsIncludes (jsOr uct "application/octet-stream") "text/html" = true →
        assetHandlerContentType (normalizeSlash p) uct = "application/javascript")
    ∧ (jsIncludes (normalizeSlash p) ".js" = false →
        jsIncludes (normalizeSlash p) ".wasm" = true →
        jsIncludes (jsOr uct "application/octet-stream") "text/html" = true →
        assetHandlerContentType (normalizeSlash p) uct = "application/wasm")
    ∧ (jsIncludes (normalizeSlash p) ".js" = false →
        jsIncludes (normalizeSlash p) ".wasm" = false →
        jsIncludes (normalizeSlash p) ".pk3" = true →
        jsIncludes (jsOr uct "application/octet-stream") "text/html" = true →
        assetHandlerContentType (normalizeSlash p) uct = "application/octet-stream")
    ∧ (jsIncludes (jsOr uct "application/octet-stream") "text/html" = false →
        assetHandlerContentType (normalizeSlash p) uct
          = jsOr uct "application/octet-stream")
    ∧ (jsIncludes (normalizeSlash p) ".js" = false →
        jsIncludes (normalizeSlash p) ".wasm" = false →
        jsIncludes (normalizeSlash p) ".pk3" = false →
        assetHandlerContentType (normalizeSlash p) uct
          = jsOr uct "application/octet-stream")
    ∧ hprContentType false tu uct = jsOr uct "application/octet-stream" := by
  refine ⟨hprContentType_asset (normalizeSlash p) uct, ?_, ?_, ?_, ?_, ?_, rfl⟩
  · intro h1 h2
    simp [assetHandlerContentType, h1, h2]
  · intro h1 h2 h3
    simp [assetHandlerContentType, h1, h2, h3]
  · intro h1 h2 h3 h4
    simp [assetHandlerContentType, h1, h2, h3, h4]
  · intro h1
    simp [assetHandlerContentType, h1]
  · intro h1 h2 h3
    simp [assetHandlerContentType, h1, h2, h3]

/-- Witness for C1: the misconfigured `.js` asset served as text/html is
overridden to application/javascript in both cited implementations, and a
well-typed upstream passes through. -/
theorem c1_contentTypeCorrection_witness :
    assetHandlerContentType (normalizeSlash "/ftewebgl.js") (some "text/html")
      = "application/javascript"
    ∧ hprContentType true (NZP_ORIGIN ++ normalizeSlash "/ftewebgl.js")
        (some "text/html") = "application/javascript"
    ∧ assetHandlerContentType (normalizeSlash "/ftewebgl.js")
        (some "application/javascript") = "application/javascript" := by
  have h := c1_contentTypeCorrection "/ftewebgl.js" "https://example.com" (some "text/html")
  have ha := h.2.1 (by decide) (by decide)
  refine ⟨ha, by rw [h.1]; exact ha, ?_⟩
  exact (c1_contentTypeCorrection "/ftewebgl.js" "https://example.com"
    (some "application/javascript")).2.2.2.2.1 (by decide)

/-- Key-predicate transport through the `handleProxyRequest` builder, for an
arbitrary inbound header mapping. -/
theorem hprHeaders_keys {P : String → Prop} (tu : String) (m : Bool) (hs : Headers)
    (hstop : ∀ n, hprStopList.contains (jsToLower n) = false → P n)
    (hUA : P "User-Agent") (hRef : P "Referer") (hOrg : P "Origin")
    (hAcc : P "Accept") : ∀ q ∈ hprHeaders tu m hs, P q.1 := by
  have hf : ∀ r ∈ filterHeaders hprStopList hs, P r.1 := by
    intro r hr
    exact hstop r.1 (filterHeaders_keys_not_stop hprStopList hs r hr)
  intro q hq
  cases m with
  | false =>
    unfold hprHeaders at hq
    dsimp only at hq
    simp only [Bool.false_and, Bool.false_eq_true, if_false] at hq
    exact objSet_forall_keys (objSet_forall_keys
      (objSet_forall_keys hf hUA) hRef) hOrg q hq
  | true =>
    unfold hprHeaders at hq
    dsimp only at hq
    simp only [Bool.true_and, reduceIte] at hq
    split at hq
    · exact objSet_forall_keys (objSet_forall_keys (objSet_forall_keys
        (objSet_forall_keys hf hUA) hRef) hOrg) hAcc q hq
    · exact objSet_forall_keys (objSet_forall_keys
        (objSet_forall_keys hf hUA) hRef) hOrg q hq

/-- Key-predicate transport through the part_000 asset-route builder. -/
theorem assetHandlerHeaders_keys {P : String → Prop} (ap : String) (hs : Headers)
    (hstop : ∀ n, assetStopList.contains (jsToLower n) = false → P n)
    (hUA : P "User-Agent") (hRef : P "Referer") (hOrg : P "Origin")
    (hAcc : P "Accept") : ∀ q ∈ assetHandlerHeaders ap hs, P q.1 := by
  have hf : ∀ r ∈ filterHeaders assetStopList hs, P r.1 := by
    intro r hr
    exact hstop r.1 (filterHeaders_keys_not_stop assetStopList hs r hr)
  intro q hq
  unfold assetHandlerHeaders at hq
  dsimp only at hq
  split at hq
  · exact objSet_forall_keys (objSet_forall_keys (objSet_forall_keys
      (objSet_forall_keys hf hUA) hRef) hOrg) hAcc q hq
  · exact objSet_forall_keys (objSet_forall_keys
      (objSet_forall_keys hf hUA) hRef) hOrg q hq

/-- The stop-list names exactly as the specification states them. -/
def specStopNames : List String :=
  ["host", "connection", "x-forwarded-for", "x-forwarded-host",
   "x-forwarded-proto", "x-forwarded-ssl", "via", "forwarded",
   "cf-connecting-ip", "true-client-ip", "x-real-ip", "x-cluster-client-ip",
   "x-app-name", "x-app-version", "accept-encoding"]

theorem specStopNames_sub (x : String) (hx : x ∈ specStopNames) :
    hprStopList.contains x = true := by
  fin_cases hx <;> decide

theorem not_specStop_of_not_hprStop (x : String)
    (h : hprStopList.contains x = false) : specStopNames.contains x = false := by
  cases hc : specStopNames.contains x with
  | false => rfl
  | true =>
    have hmem : x ∈ specStopNames := by
      have := List.mem_of_elem_eq_true hc
      exact this
    rw [specStopNames_sub x hmem] at h
    cases h

/-- C4: for every inbound request in either mode and every inbound header
mapping whatsoever, the outbound header set of the two cited builders
(`handleProxyRequest`, both modes, and the part_000 asset route) contains —
case-insensitively — none of the fifteen stop-list names of the
specification, and none of if-none-match and if-modified-since either. -/
theorem c4_stopListExclusion (hs : Headers) (tu ap : String) (m : Bool) :
    ((hprHeaders tu m hs).all
      (fun q => !(specStopNames.contains (jsToLower q.1))
        && !(jsToLower q.1 == "if-none-match")
        && !(jsToLower q.1 == "if-modified-since")) = true)
    ∧ ((assetHandlerHeaders ap hs).all
      (fun q => !(specStopNames.contains (jsToLower q.1))
        && !(jsToLower q.1 == "if-none-match")
        && !(jsToLower q.1 == "if-modified-since")) = true) := by
  have hstop : ∀ n, hprStopList.contains (jsToLower n) = false →
      (!(specStopNames.contains (jsToLower n))
        && !(jsToLower n == "if-none-match")
        && !(jsToLower n == "if-modified-since")) = true := by
    intro n h
    have h1 := not_specStop_of_not_hprStop (jsToLower n) h
    have h2 : ¬ jsToLower n = "if-none-match" := by
      intro he
      rw [he] at h
      cases h
    have h3 : ¬ jsToLower n = "if-modified-since" := by
      intro he
      rw [he] at h
      cases h
    simp at h1
    simp [h1, h2, h3]
  constructor
  · rw [List.all_eq_true]
    exact hprHeaders_keys tu m hs hstop (by decide) (by decide) (by decide) (by decide)
  · rw [List.all_eq_true]
    exact assetHandlerHeaders_keys ap hs hstop (by decide) (by decide) (by decide) (by decide)

/-- C5 counterexample: the first revision of server.js (lines 38-41) copies
every upstream response header with no filter, so an upstream set-cookie is
relayed to the caller verbatim, contradicting the claim that set-cookie is
suppressed in either mode. -/
theorem c5_counterexample :
    copyAllResponseHeaders [("set-cookie", "sessionid=1")]
      = [("set-cookie", "sessionid=1")]
    ∧ (copyAllResponseHeaders [("set-cookie", "sessionid=1")]).any
        (fun q => jsToLower q.1 == "set-cookie") = true := by
  exact ⟨by decide, by decide⟩

/-- C5 (amended): in the revisions that filter — the part_000 asset route
and the explicit route with the same copy loop — the caller-visible headers
never contain set-cookie, whatever the upstream sends, and every upstream
header other than set-cookie and content-type is copied through (for an
upstream mapping with case-insensitively distinct names, as an axios header
object is); the first revision of server.js however relays set-cookie
unfiltered. -/
theorem c5_setCookieSuppression (ap : String) (up : List (String × String)) :
    ((assetResponseHeaders ap up).all
      (fun q => !(jsToLower q.1 == "set-cookie")) = true)
    ∧ ((explicitResponseHeaders up).all
      (fun q => !(jsToLower q.1 == "set-cookie")) = true)
    ∧ (List.Pairwise (fun a b => ¬ jsToLower a.1 = jsToLower b.1) up →
        ∀ q ∈ up, ¬ jsToLower q.1 = "set-cookie" → ¬ jsToLower q.1 = "content-type" →
          q ∈ assetResponseHeaders ap up ∧ q ∈ explicitResponseHeaders up) := by
  have hcopy : ∀ q ∈ copyResponseHeaders up, ¬ jsToLower q.1 = "set-cookie" := by
    intro q hq
    unfold copyResponseHeaders at hq
    refine @copyFold_keys (fun n => ¬ jsToLower n = "set-cookie") up [] ?_ ?_ q hq
    · intro r hr
      cases hr
    · intro r _ hr
      exact hr
  have hkeys : ∀ (v : String), ∀ q ∈ resSet (copyResponseHeaders up) "Content-Type" v,
      (!(jsToLower q.1 == "set-cookie")) = true := by
    intro v q hq
    refine @resSet_forall_keys (fun n => (!(jsToLower n == "set-cookie")) = true)
      (copyResponseHeaders up) "Content-Type" v ?_ ?_ q hq
    · intro r hr
      simpa using hcopy r hr
    · decide
  refine ⟨?_, ?_, ?_⟩
  · rw [List.all_eq_true]
    exact hkeys _
  · rw [List.all_eq_true]
    exact hkeys _
  · intro hpw q hq hsc hct
    have hmem : q ∈ copyResponseHeaders up := by
      unfold copyResponseHeaders
      exact copyFold_mem_new up [] q hq hsc hpw
    have hne : ¬ jsToLower q.1 = jsToLower "Content-Type" := by
      rw [jsToLower_contentType]
      exact hct
    exact ⟨resSet_mem_preserve hmem hne, resSet_mem_preserve hmem hne⟩

/-- Witness for C5: a concrete upstream response with a cookie and two
ordinary headers; the ordinary non-content-type header is passed through. -/
theorem c5_setCookieSuppression_witness :
    ("x-frame-options", "DENY")
      ∈ assetResponseHeaders "/a.js" [("content-type", "text/html"),
          ("x-frame-options", "DENY"), ("set-cookie", "sid=1")]
    ∧ ("x-frame-options", "DENY")
      ∈ explicitResponseHeaders [("content-type", "text/html"),
          ("x-frame-options", "DENY"), ("set-cookie", "sid=1")] :=
  (c5_setCookieSuppression "/a.js" [("content-type", "text/html"),
      ("x-frame-options", "DENY"), ("set-cookie", "sid=1")]).2.2
    (by decide) ("x-frame-options", "DENY") (by decide) (by decide) (by decide)

/-- C6 counterexample: `handleProxyRequest` forces the fixed browser
User-Agent even in explicit mode — a caller-supplied User-Agent is not
preserved, contradicting the claim. -/
theorem c6_counterexample :
    sentHeaderValue (hprHeaders "https://example.com" false
        [("user-agent", "custom-agent")]) "user-agent" = some fixedUA
    ∧ ¬ sentHeaderValue (hprHeaders "https://example.com" false
        [("user-agent", "custom-agent")]) "user-agent" = some "custom-agent" := by
  exact ⟨by decide, by decide⟩

/-- C6 (amended): with lowercase inbound names (the node runtime guarantee),
the User-Agent sent upstream is the fixed browser string for every
asset-mode request of both cited asset implementations; the part_000
explicit route preserves a truthy caller User-Agent and falls back to the
fixed string otherwise; but `handleProxyRequest` forces the fixed string in
explicit mode as well. -/
theorem c6_userAgent (tu ap uo : String) (hs : Headers)
    (hlc : ∀ p ∈ hs, jsToLower p.1 = p.1) :
    sentHeaderValue (hprHeaders tu true hs) "user-agent" = some fixedUA
    ∧ sentHeaderValue (assetHandlerHeaders ap hs) "user-agent" = some fixedUA
    ∧ sentHeaderValue (hprHeaders tu false hs) "user-agent" = some fixedUA
    ∧ (objTruthy (filterHeaders explicitStopList hs) "user-agent" = true →
        sentHeaderValue (explicitHandlerHeaders uo hs) "user-agent"
          = objLookup (filterHeaders explicitStopList hs) "user-agent")
    ∧ (objTruthy (filterHeaders explicitStopList hs) "user-agent" = false →
        sentHeaderValue (explicitHandlerHeaders uo hs) "user-agent"
          = some fixedUA) := by
  refine ⟨?_, ?_, ?_, ?_, ?_⟩
  · rw [hprHeaders_eq tu true hs hlc]
    simp [sentHeaderValue_append_list, jsToLower_accept, jsToLower_origin,
      jsToLower_referer, jsToLower_userAgent]
  · rw [assetHandlerHeaders_eq ap hs hlc]
    simp [sentHeaderValue_append_list, jsToLower_accept, jsToLower_origin,
      jsToLower_referer, jsToLower_userAgent]
  · rw [hprHeaders_eq tu false hs hlc]
    simp [sentHeaderValue_append_list, jsToLower_origin,
      jsToLower_referer, jsToLower_userAgent]
  · intro ht
    rw [explicitHandlerHeaders_eq uo hs hlc]
    simp [sentHeaderValue_append_list, jsToLower_referer, jsToLower_userAgent]
    unfold objTruthy at ht
    cases hov : objLookup (filterHeaders explicitStopList hs) "user-agent" with
    | none =>
      rw [hov] at ht
      cases ht
    | some v =>
      rw [hov] at ht
      have hv : ¬ v = "" := by simpa using ht
      simp [jsOr, hv]
  · intro ht
    rw [explicitHandlerHeaders_eq uo hs hlc]
    simp [sentHeaderValue_append_list, jsToLower_referer, jsToLower_userAgent]
    unfold objTruthy at ht
    cases hov : objLookup (filterHeaders explicitStopList hs) "user-agent" with
    | none => simp [jsOr]
    | some v =>
      rw [hov] at ht
      have hv : v = "" := by simpa using ht
      simp [jsOr, hv]

/-- Witness for C6: concrete requests — an asset request with a caller
User-Agent (overridden), and explicit requests with and without one under
the part_000 route (preserved, defaulted). -/
theorem c6_userAgent_witness :
    sentHeaderValue (assetHandlerHeaders "/a.js" [("user-agent", "curl/8.0")])
      "user-agent" = some fixedUA
    ∧ sentHeaderValue (explicitHandlerHeaders "https://example.com"
        [("user-agent", "curl/8.0")]) "user-agent" = some "curl/8.0"
    ∧ sentHeaderValue (explicitHandlerHeaders "https://example.com" [])
        "user-agent" = some fixedUA := by
  have h1 := (c6_userAgent "https://example.com/a.js" "/a.js" "https://example.com"
    [("user-agent", "curl/8.0")] (by decide)).2.1
  have h2 := (c6_userAgent "https://example.com/a.js" "/a.js" "https://example.com"
    [("user-agent", "curl/8.0")] (by decide)).2.2.2.1 (by decide)
  have h3 := (c6_userAgent "https://example.com/a.js" "/a.js" "https://example.com"
    [] (by decide)).2.2.2.2 (by decide)
  refine ⟨h1, ?_, h3⟩
  rw [h2]
  decide

/-- On an asset target URL the derivation chain reads through the fixed
origin: the extension tests see exactly the path, and the final dot test is
always satisfied by the origin itself, so the `*/*` row is unreachable. -/
theorem deriveAccept_origin (q : String) :
    deriveAccept (NZP_ORIGIN ++ q) =
      if jsIncludes q ".js" || jsIncludes q ".mjs" then
        "application/javascript, */*;q=0.8"
      else if jsIncludes q ".css" then "text/css, */*;q=0.8"
      else if jsIncludes q ".wasm" then "application/wasm, application/x-wasm, */*;q=0.8"
      else if jsIncludes q ".pk3" then "application/octet-stream, */*;q=0.8"
      else "image/*, audio/*, video/*, application/json, text/*, */*;q=0.8" := by
  unfold deriveAccept
  rw [jsIncludes_origin_js, jsIncludes_origin_mjs, jsIncludes_origin_css,
    jsIncludes_origin_wasm, jsIncludes_origin_pk3, jsIncludes_origin_dot]
  simp only [reduceIte]

/-- C7 counterexample: the substring tests are case-sensitive and the
presence guard reads the capitalised key, so for the path `/A.JS` with a
caller Accept of text/plain the asset route still derives the generic
with-extension Accept value — neither the claimed case-insensitive
application/javascript value nor the caller value is sent. -/
theorem c7_counterexample :
    sentHeaderValue (assetHandlerHeaders "/A.JS" [("accept", "text/plain")])
        "accept"
      = some "image/*, audio/*, video/*, application/json, text/*, */*;q=0.8"
    ∧ ¬ sentHeaderValue (assetHandlerHeaders "/A.JS" [("accept", "text/plain")])
        "accept" = some "application/javascript, */*;q=0.8"
    ∧ ¬ sentHeaderValue (assetHandlerHeaders "/A.JS" [("accept", "text/plain")])
        "accept" = some "text/plain" := by
  exact ⟨by decide, by decide, by decide⟩

/-- C7 (amended): with lowercase inbound names, every asset-mode request
gets a derived Accept header (the guard reads the capitalised key `Accept`,
which never survives filtering, so it always passes), appended after any
caller accept and hence the value sent upstream; its value follows the
first-match-wins, case-SENSITIVE substring table — `.js`/`.mjs` then `.css`
then `.wasm` then `.pk3` then any dot then `*/*` — evaluated on the decoded
path in the part_000 asset route and on the full target URL (whose fixed
origin contains a dot, so the `*/*` row is unreachable) in
`handleProxyRequest`; explicit-mode requests never get a derived Accept. -/
theorem c7_acceptDerivation (p ap tu uo : String) (hs : Headers)
    (hlc : ∀ q ∈ hs, jsToLower q.1 = q.1) :
    sentHeaderValue (assetHandlerHeaders ap hs) "accept" = some (deriveAccept ap)
    ∧ (jsIncludes ap ".js" = true →
        deriveAccept ap = "application/javascript, */*;q=0.8")
    ∧ (jsIncludes ap ".js" = false → jsIncludes ap ".mjs" = true →
        deriveAccept ap = "application/javascript, */*;q=0.8")
    ∧ (jsIncludes ap ".js" = false → jsIncludes ap ".mjs" = false →
        jsIncludes ap ".css" = true → deriveAccept ap = "text/css, */*;q=0.8")
    ∧ (jsIncludes ap ".js" = false → jsIncludes ap ".mjs" = false →
        jsIncludes ap ".css" = false → jsIncludes ap ".wasm" = true →
        deriveAccept ap = "application/wasm, application/x-wasm, */*;q=0.8")
    ∧ (jsIncludes ap ".js" = false → jsIncludes ap ".mjs" = false →
        jsIncludes ap ".css" = false → jsIncludes ap ".wasm" = false →
        jsIncludes ap ".pk3" = true →
        deriveAccept ap = "application/octet-stream, */*;q=0.8")
    ∧ (jsIncludes ap ".js" = false → jsIncludes ap ".mjs" = false →
        jsIncludes ap ".css" = false → jsIncludes ap ".wasm" = false →
        jsIncludes ap ".pk3" = false → jsIncludes ap "." = true →
        deriveAccept ap
          = "image/*, audio/*, video/*, application/json, text/*, */*;q=0.8")
    ∧ (jsIncludes ap "." = false → deriveAccept ap = "*/*")
    ∧ sentHeaderValue (hprHeaders (NZP_ORIGIN ++ normalizeSlash p) true hs)
        "accept" = some (deriveAccept (NZP_ORIGIN ++ normalizeSlash p))
    ∧ sentHeaderValue (hprHeaders tu false hs) "accept"
        = sentHeaderValue (filterHeaders hprStopList hs) "accept"
    ∧ sentHeaderValue (explicitHandlerHeaders uo hs) "accept"
        = sentHeaderValue (filterHeaders explicitStopList hs) "accept" := by
  refine ⟨?_, ?_, ?_, ?_, ?_, ?_, ?_, ?_, ?_, ?_, ?_⟩
  · rw [assetHandlerHeaders_eq ap hs hlc]
    simp [sentHeaderValue_append_list, jsToLower_accept, jsToLower_origin,
      jsToLower_referer, jsToLower_userAgent]
  · intro h1
    simp [deriveAccept, h1]
  · intro h1 h2
    simp [deriveAccept, h1, h2]
  · intro h1 h2 h3
    simp [deriveAccept, h1, h2, h3]
  · intro h1 h2 h3 h4
    simp [deriveAccept, h1, h2, h3, h4]
  · intro h1 h2 h3 h4 h5
    simp [deriveAccept, h1, h2, h3, h4, h5]
  · intro h1 h2 h3 h4 h5 h6
    simp [deriveAccept, h1, h2, h3, h4, h5, h6]
  · intro h1
    have hjs : jsIncludes ap ".js" = false := by
      cases hc : jsIncludes ap ".js" with
      | false => rfl
      | true =>
        have hd := jsIncludes_dot_of_js ap hc
        rw [h1] at hd
        cases hd
    have hmjs : jsIncludes ap ".mjs" = false := by
      cases hc : jsIncludes ap ".mjs" with
      | false => rfl
      | true =>
        have hd := jsIncludes_dot_of_mjs ap hc
        rw [h1] at hd
        cases hd
    have hcss : jsIncludes ap ".css" = false := by
      cases hc : jsIncludes ap ".css" with
      | false => rfl
      | true =>
        have hd := jsIncludes_dot_of_css ap hc
        rw [h1] at hd
        cases hd
    have hwasm : jsIncludes ap ".wasm" = false := by
      cases hc : jsIncludes ap ".wasm" with
      | false => rfl
      | true =>
        have hd := jsIncludes_dot_of_wasm ap hc
        rw [h1] at hd
        cases hd
    have hpk3 : jsIncludes ap ".pk3" = false := by
      cases hc : jsIncludes ap ".pk3" with
      | false => rfl
      | true =>
        have hd := jsIncludes_dot_of_pk3 ap hc
        rw [h1] at hd
        cases hd
    simp [deriveAccept, hjs, hmjs, hcss, hwasm, hpk3, h1]
  · rw [hprHeaders_eq (NZP_ORIGIN ++ normalizeSlash p) true hs hlc]
    simp [sentHeaderValue_append_list, jsToLower_accept, jsToLower_origin,
      jsToLower_referer, jsToLower_userAgent]
  · rw [hprHeaders_eq tu false hs hlc]
    simp [sentHeaderValue_append_list, jsToLower_origin,
      jsToLower_referer, jsToLower_userAgent]
  · rw [explicitHandlerHeaders_eq uo hs hlc]
    simp [sentHeaderValue_append_list, jsToLower_referer, jsToLower_userAgent]

/-- Witness for C7: a concrete `.css` asset request with no caller headers
gets the text/css Accept value, and a `.pk3` path takes the octet-stream
row. -/
theorem c7_acceptDerivation_witness :
    sentHeaderValue (assetHandlerHeaders "/style.css" []) "accept"
      = some "text/css, */*;q=0.8"
    ∧ deriveAccept "/game.pk3" = "application/octet-stream, */*;q=0.8" := by
  have h := c7_acceptDerivation "/style.css" "/style.css" "https://nzp.gay/x"
    "https://example.com" [] (by intro q hq; cases hq)
  refine ⟨?_, ?_⟩
  · rw [h.1]
    rw [h.2.2.2.1 (by decide) (by decide) (by decide)]
  · exact (c7_acceptDerivation "/game.pk3" "/game.pk3" "https://nzp.gay/x"
      "https://example.com" [] (by intro q hq; cases hq)).2.2.2.2.2.1
      (by decide) (by decide) (by decide) (by decide) (by decide)
